import Mathlib

/- Verification development for the swag store (github.com/joncalhoun/twg/swag):
   the url path utilities, the entity-resolving middleware, the campaign
   presentation handler and the order checkout handlers, embedded as pure Lean
   functions over an explicit model of their collaborators.  Go strings are
   modelled as `String`/`List Char`, Go `int`/`int64` as `Int` (with `Int.tdiv`
   for Go's truncating division), fallible collaborator calls as `Except`
   results supplied through a handler record, and every collaborator call a
   handler makes is recorded in an event trace so that call sequencing can be
   stated and proved. -/

namespace Swag

/-- Go `error` values as they are discriminated by this code base: the
`stripe.Error` type (carrying a user-safe `Message`, tested for with a type
assertion in `Confirm`), `sql.ErrNoRows` (tested for in `ShowActive`), and any
other error value. -/
inductive GoErr where
  | stripeErr (message : String)
  | sqlNoRows
  | other (message : String)
deriving DecidableEq

/-- Modelled from the spec: `db.Campaign` (§3) — integer identity, price in
minor currency units, start and end instants.  Instants are nanosecond counts,
matching Go's `time.Time`/`time.Duration` arithmetic used in `ShowActive`.
The `db` package belongs to the repository but is not under src. -/
structure Campaign where
  ID : Int
  Price : Int
  StartsAt : Int
  EndsAt : Int
deriving DecidableEq

/-- Modelled from the spec: the payment collaborator's customer record (§6),
`CreateCustomer(token, email) -> Customer{ID}`. -/
structure Customer where
  ID : String
deriving DecidableEq

/-- Modelled from the spec: the payment collaborator's charge record (§6),
`Charge{ID}` with a `Status` enum string. -/
structure Charge where
  ID : String
  Status : String
deriving DecidableEq

/-- Customer sub-record of `db.Order` (spec §3). -/
structure OrderCustomer where
  Name : String
  Email : String
deriving DecidableEq

/-- Address sub-record of `db.Order` (spec §3): structured fields plus the
denormalized raw block. -/
structure OrderAddress where
  Street1 : String
  Street2 : String
  City : String
  State : String
  Zip : String
  Country : String
  Raw : String
deriving DecidableEq

/-- Payment sub-record of `db.Order` (spec §3): source tag, payment-provider
customer ID, optional charge ID (empty string when absent). -/
structure OrderPayment where
  Source : String
  CustomerID : String
  ChargeID : String
deriving DecidableEq

/-- Modelled from the spec: `db.Order` (§3).  The `db` package belongs to the
repository but is not under src; the fields are exactly those the handlers in
src/unnamed/part_000 read and write. -/
structure Order where
  ID : Int
  CampaignID : Int
  Customer : OrderCustomer
  Address : OrderAddress
  Payment : OrderPayment
deriving DecidableEq

/-- One call to a storage or payment collaborator, recorded in the order the
handler makes them. -/
inductive Event where
  | getCampaign (id : Int)
  | getOrderViaPayCus (payCusID : String)
  | createOrder (order : Order)
  | confirmOrder (orderID : Int) (addressRaw chargeID : String)
  | customer (token email : String)
  | getCharge (chargeID : String)
  | charge (customerID : String) (amount : Int)
deriving DecidableEq

/-- The HTTP response a handler produces: direct body writes (`fmt.Fprint`,
status 200), `http.Error`, `http.Redirect`, `http.NotFound`, or executing one
of the four templates with the given data. -/
inductive Response where
  | body (status : Nat) (content : String)
  | httpError (status : Nat) (message : String)
  | redirect (status : Nat) (location : String)
  | notFound
  | renderNew (campaignID price : Int) (publicKey : String)
  | renderReview (orderID address : String) (price : Int)
  | renderShow (campaignID price timeLeftValue : Int) (timeLeftUnit : String)
  | renderEnded
deriving DecidableEq

/-- A handler invocation either panics (Go runtime panic, e.g. a failed
unchecked type assertion) or writes a response. -/
inductive Outcome where
  | panicked (message : String)
  | response (res : Response)
deriving DecidableEq

/-- The request state a middleware sees and rewrites: the URL path and the two
context keys ("campaign", "order") used by this code base. -/
structure Request where
  path : String
  ctxCampaign : Option Campaign
  ctxOrder : Option Order
deriving DecidableEq

/-- A middleware either answers not-found itself or invokes the inner handler
with a rewritten request. -/
inductive MwOutcome where
  | notFound
  | next (r : Request)
deriving DecidableEq

end Swag

namespace urlpath

/-- Backtracking step of Go's `path.Clean` for a rooted path: on "..", the
write index backs up over the last segment and its separator (`out.w--` until
the character at the write index is '/').  Here `out` is the cleaned buffer
without its leading slash, so the `dotdot` barrier of the Go code is the empty
buffer. -/
def popSeg (out : List Char) : List Char :=
  ((out.reverse.dropWhile (fun c => c ≠ '/')).drop 1).reverse

/-- Segment append of Go's `path.Clean` for a rooted path: a '/' separator is
written first unless the buffer is still empty (`out.w != 1` in the Go code,
which counts the leading slash we keep implicit). -/
def appendSeg (out seg : List Char) : List Char :=
  (if out.isEmpty then out else out ++ ['/']) ++ seg

/-- True when a segment boundary follows: end of input or a '/'.  This is the
`r+1 == n || path[r+1] == '/'` test of Go's `path.Clean`. -/
def segEnd : List Char → Bool
  | [] => true
  | c :: _ => c = '/'

/-- The main loop of Go stdlib `path.Clean`, specialized to rooted inputs
(this repository always calls it on "/" + path), one character per step.
`out` is the output buffer after the leading '/'.  `inSeg` true means the
inner copy loop of the Go code is running (characters are appended until the
next '/'); `inSeg` false is the head of the outer loop: skip separators, skip
"." segments, pop a segment on "..", and on any other character write the
separator plus that character and enter the copy loop. -/
def cleanLoop (out : List Char) (inSeg : Bool) : List Char → List Char
  | [] => out
  | c :: rest =>
    if inSeg then
      if c = '/' then cleanLoop out false rest
      else cleanLoop (out ++ [c]) true rest
    else
      match c, rest with
      | '/', rest1 => cleanLoop out false rest1
      | '.', [] => out
      | '.', '/' :: rest2 => cleanLoop out false rest2
      | '.', '.' :: [] => popSeg out
      | '.', '.' :: '/' :: rest2 => cleanLoop (popSeg out) false rest2
      | c1, rest1 => cleanLoop (appendSeg out [c1]) true rest1

/-- Go stdlib `path.Clean` applied to the rooted path "/" ++ path: the result
is the leading '/' followed by the cleaned buffer (for a rooted input the
`out.w == 0` fallback of the Go code is unreachable). -/
def stdCleanRooted (path : List Char) : List Char := '/' :: cleanLoop [] false path

/-- Embeds `Clean` from src/swag/urlpath/path.go: normalize "/" + path with
the standard library clean, then restore a trailing '/' when missing. -/
def Clean (path : String) : String :=
  let p := stdCleanRooted path.data
  if p.getLast? = some '/' then ⟨p⟩ else ⟨p ++ ['/']⟩

/-- Embeds `Split` from src/swag/urlpath/path.go: clean, drop the leading '/',
split once on the first remaining '/' (when no '/' remains the tail defaults
to "/", matching the `append(parts, "/")` branch), and clean the tail. -/
def Split (path : String) : String × String :=
  let p := (Clean path).data
  let s := p.drop 1
  let headSeg := s.takeWhile (fun c => c ≠ '/')
  match s.dropWhile (fun c => c ≠ '/') with
  | [] => (⟨headSeg⟩, Clean "/")
  | _ :: tl => (⟨headSeg⟩, Clean ⟨tl⟩)

end urlpath

namespace Swag

/-- Digit-accumulating loop of Go stdlib `strconv.Atoi`: fails on the first
non-digit character. -/
def digitsToNat (acc : Nat) : List Char → Option Nat
  | [] => some acc
  | c :: cs => if '0' ≤ c ∧ c ≤ '9' then digitsToNat (acc * 10 + (c.toNat - 48)) cs else none

/-- Models Go stdlib `strconv.Atoi`: an optional sign followed by at least one
decimal digit; anything else is an error.  The 64-bit range check of the Go
implementation is omitted — no claim depends on it. -/
def Atoi (s : String) : Except GoErr Int :=
  match s.data with
  | [] => .error (.other "invalid syntax")
  | '+' :: rest =>
    match rest, digitsToNat 0 rest with
    | _ :: _, some n => .ok (Int.ofNat n)
    | _, _ => .error (.other "invalid syntax")
  | '-' :: rest =>
    match rest, digitsToNat 0 rest with
    | _ :: _, some n => .ok (-(Int.ofNat n))
    | _, _ => .error (.other "invalid syntax")
  | cs =>
    match digitsToNat 0 cs with
    | some n => .ok (Int.ofNat n)
    | none => .error (.other "invalid syntax")

/-- Character-list prefix test (`hasPref pat s` is true when `pat` is a
prefix of `s`); the match test of `strings.Index` inside `strings.Replace`. -/
def hasPref : List Char → List Char → Bool
  | [], _ => true
  | _ :: _, [] => false
  | p :: ps, c :: cs => p == c && hasPref ps cs

/-- Models `strings.Replace(s, pat, rep, 1)` from the Go standard library:
replace the first occurrence of `pat` (if any) by `rep`. -/
def replaceOnce : List Char → List Char → List Char → List Char
  | [], pat, rep => if hasPref pat [] then rep else []
  | c :: rest, pat, rep =>
    if hasPref pat (c :: rest) then rep ++ (c :: rest).drop pat.length
    else c :: replaceOnce rest pat rep

/-- True when `pat` occurs as a contiguous run somewhere in the list; used to
reason about when `strings.Replace` finds a match. -/
def containsSeq (pat : List Char) : List Char → Bool
  | [] => hasPref pat []
  | c :: rest => hasPref pat (c :: rest) || containsSeq pat rest

/-- Models `strings.ToUpper` on one character, restricted to ASCII (every
string the claims evaluate is ASCII; Go applies the full Unicode mapping). -/
def upperChar (c : Char) : Char :=
  if 'a' ≤ c ∧ c ≤ 'z' then Char.ofNat (c.toNat - 32) else c

/-- Models `strings.ToUpper`, restricted to ASCII. -/
def goToUpper (s : String) : String := ⟨s.data.map upperChar⟩

/-- The raw address derivation of `OrderHandler.Create`
(src/unnamed/part_000 lines 112-122): the fixed five-line layout, then one
`strings.Replace(raw, "\n\n", "\n", 1)`, then `strings.ToUpper`. -/
def rawAddress (name street1 street2 city state zip country : String) : String :=
  let block := name ++ "\n" ++ street1 ++ "\n" ++ street2 ++ "\n"
      ++ city ++ " " ++ state ++ "  " ++ zip ++ "\n" ++ country
  goToUpper ⟨replaceOnce block.data "\n\n".data "\n".data⟩

/-- The decoded `Create` form fields (the gorilla/schema decode target plus
the "stripe-token" form value). -/
structure CreateForm where
  Name : String
  Email : String
  Street1 : String
  Street2 : String
  City : String
  State : String
  Zip : String
  Country : String
  StripeToken : String
deriving DecidableEq

/-- The `db.Order` value `Create` assembles before persisting
(src/unnamed/part_000 lines 100-126).  Storage assigns the integer ID on
`CreateOrder`; the handler never reads it, so it stays at the zero value. -/
def createdOrder (campaign : Campaign) (form : CreateForm) (cusID : String) : Order :=
  { ID := 0
    CampaignID := campaign.ID
    Customer := { Name := form.Name, Email := form.Email }
    Address := { Street1 := form.Street1, Street2 := form.Street2, City := form.City,
                 State := form.State, Zip := form.Zip, Country := form.Country,
                 Raw := rawAddress form.Name form.Street1 form.Street2 form.City
                   form.State form.Zip form.Country }
    Payment := { Source := "stripe", CustomerID := cusID, ChargeID := "" } }

/-- The `OrderHandler` collaborators (src/unnamed/part_000 lines 30-50): the
storage interface, the stripe client interface and the public key.  Each
function gives the result the collaborator returns when called. -/
structure OrderHandler where
  CreateOrder : Order → Except GoErr Unit
  GetOrderViaPayCus : String → Except GoErr Order
  GetCampaign : Int → Except GoErr Campaign
  ConfirmOrder : Int → String → String → Except GoErr Unit
  StripePublicKey : String
  StripeCustomer : String → String → Except GoErr Customer
  StripeGetCharge : String → Except GoErr Charge
  StripeCharge : String → Int → Except GoErr Charge

/-- Fixed user-facing message of `Create` on a stripe customer failure. -/
def paymentInfoErrMsg : String :=
  "Something went wrong processing your payment information. Try again, or contact me - jon@calhoun.io - if the problem persists."

/-- Fixed generic user-facing message. -/
def genericErrMsg : String := "Something went wrong..."

/-- Fixed user-facing message of `Confirm` on an unclassified charge error. -/
def cardErrMsg : String :=
  "Something went wrong processing your card. Please contact me for support - jon@calhoun.io"

/-- Fixed user-facing message of `Confirm` when the charge succeeded but the
save failed. -/
def chargedSaveFailMsg : String :=
  "You were charged, but something went wrong saving your data. Please contact me for support - jon@calhoun.io"

/-- Fixed user-facing message of `Show` on a charge lookup failure. -/
def lookupFailMsg : String :=
  "Failed to lookup the status of your order. Please try again, or contact me if this persists - jon@calhoun.io"

/-- Fixed `Show` message for charge status "succeeded". -/
def succeededMsg : String :=
  "Your order has been completed successfully! You will be contacted when it ships."

/-- Fixed `Show` message for charge status "pending". -/
def pendingMsg : String := "Your payment is still pending."

/-- Fixed `Show` message for charge status "failed". -/
def failedMsg : String :=
  "Your payment failed. :( Please create a new order with a new card if you want to try again."

/-- Fixed `New` message when the campaign context value is missing. -/
def campaignNotProvidedMsg : String := "Campaign not provided"

/-- The body `Show`'s status switch writes: each recognized status gets its
fixed message through `fmt.Fprintln` (hence the trailing newline); the switch
has no default case, so any other status writes nothing. -/
def statusMessage (status : String) : String :=
  if status = "succeeded" then succeededMsg ++ "\n"
  else if status = "pending" then pendingMsg ++ "\n"
  else if status = "failed" then failedMsg ++ "\n"
  else ""

/-- Embeds `OrderHandler.New` (src/unnamed/part_000 lines 52-75): the
campaign context read uses a checked assertion, answering 500 when absent;
otherwise the new-order template runs with campaign ID, price in major units
and the stripe public key. -/
def OrderHandler.New (oh : OrderHandler) (ctxCampaign : Option Campaign) : Response :=
  match ctxCampaign with
  | none => .httpError 500 campaignNotProvidedMsg
  | some campaign => .renderNew campaign.ID (campaign.Price.tdiv 100) oh.StripePublicKey

/-- Embeds `OrderHandler.Create` (src/unnamed/part_000 lines 77-133).  The
campaign context read is an unchecked type assertion (panic when absent), an
empty decoded email panics, a stripe customer failure answers 500, a
`CreateOrder` failure answers 400, and success redirects (302) to the order's
display URL keyed by the stripe customer ID. -/
def OrderHandler.Create (oh : OrderHandler) (ctxCampaign : Option Campaign)
    (form : CreateForm) : Outcome × List Event :=
  match ctxCampaign with
  | none => (.panicked "interface conversion", [])
  | some campaign =>
    if form.Email = "" then (.panicked "email wasn't parsed!", [])
    else
      match oh.StripeCustomer form.StripeToken form.Email with
      | .error _ =>
        (.response (.httpError 500 paymentInfoErrMsg), [.customer form.StripeToken form.Email])
      | .ok cus =>
        let order := createdOrder campaign form cus.ID
        match oh.CreateOrder order with
        | .error _ =>
          (.response (.httpError 400 genericErrMsg),
           [.customer form.StripeToken form.Email, .createOrder order])
        | .ok _ =>
          (.response (.redirect 302 ("/orders/" ++ order.Payment.CustomerID)),
           [.customer form.StripeToken form.Email, .createOrder order])

/-- Embeds `OrderHandler.OrderMw` (src/unnamed/part_000 lines 139-152): split
the path, look the order up by the head segment (a payment customer ID), 404
on any error, otherwise run the inner handler with the order in context and
the path rewritten to the tail. -/
def OrderHandler.OrderMw (oh : OrderHandler) (r : Request) : MwOutcome × List Event :=
  let s := urlpath.Split r.path
  match oh.GetOrderViaPayCus s.1 with
  | .error _ => (.notFound, [.getOrderViaPayCus s.1])
  | .ok order =>
    (.next { r with ctxOrder := some order, path := s.2 }, [.getOrderViaPayCus s.1])

/-- Embeds `OrderHandler.Show` (src/unnamed/part_000 lines 154-192).  The
order context read is an unchecked type assertion; a campaign lookup failure
answers 500; with a charge ID present the charge status is looked up (lookup
failure writes the fixed message with status 200, otherwise the status switch
writes its message); with no charge ID the review template runs. -/
def OrderHandler.Show (oh : OrderHandler) (ctxOrder : Option Order) : Outcome × List Event :=
  match ctxOrder with
  | none => (.panicked "interface conversion", [])
  | some order =>
    match oh.GetCampaign order.CampaignID with
    | .error _ => (.response (.httpError 500 genericErrMsg), [.getCampaign order.CampaignID])
    | .ok campaign =>
      if order.Payment.ChargeID ≠ "" then
        match oh.StripeGetCharge order.Payment.ChargeID with
        | .error _ =>
          (.response (.body 200 (lookupFailMsg ++ "\n")),
           [.getCampaign order.CampaignID, .getCharge order.Payment.ChargeID])
        | .ok chg =>
          (.response (.body 200 (statusMessage chg.Status)),
           [.getCampaign order.CampaignID, .getCharge order.Payment.ChargeID])
      else
        (.response (.renderReview order.Payment.CustomerID order.Address.Raw
            (campaign.Price.tdiv 100)),
         [.getCampaign order.CampaignID])

/-- Embeds `OrderHandler.Confirm` (src/unnamed/part_000 lines 194-225).  The
order context read is an unchecked type assertion; a campaign lookup failure
answers 500; the raw address is overwritten with the submitted "address-raw"
form value; then the charge call: a `stripe.Error` writes its message
verbatim (`fmt.Fprint`, status 200), any other error answers 500 with the
card message; on charge success `ConfirmOrder` persists (internal order ID,
raw address, charge ID) — its failure answers 500 with the charged-but-not-
saved message, its success redirects (302) to the display URL. -/
def OrderHandler.Confirm (oh : OrderHandler) (ctxOrder : Option Order)
    (addressRaw : String) : Outcome × List Event :=
  match ctxOrder with
  | none => (.panicked "interface conversion", [])
  | some order =>
    match oh.GetCampaign order.CampaignID with
    | .error _ => (.response (.httpError 500 genericErrMsg), [.getCampaign order.CampaignID])
    | .ok campaign =>
      match oh.StripeCharge order.Payment.CustomerID campaign.Price with
      | .error e =>
        match e with
        | .stripeErr msg =>
          (.response (.body 200 msg),
           [.getCampaign order.CampaignID, .charge order.Payment.CustomerID campaign.Price])
        | _ =>
          (.response (.httpError 500 cardErrMsg),
           [.getCampaign order.CampaignID, .charge order.Payment.CustomerID campaign.Price])
      | .ok chg =>
        match oh.ConfirmOrder order.ID addressRaw chg.ID with
        | .error _ =>
          (.response (.httpError 500 chargedSaveFailMsg),
           [.getCampaign order.CampaignID, .charge order.Payment.CustomerID campaign.Price,
            .confirmOrder order.ID addressRaw chg.ID])
        | .ok _ =>
          (.response (.redirect 302 ("/orders/" ++ order.Payment.CustomerID)),
           [.getCampaign order.CampaignID, .charge order.Payment.CustomerID campaign.Price,
            .confirmOrder order.ID addressRaw chg.ID])

/-- The `CampaignHandler` collaborators (src/unnamed/part_001): the storage
interface and the injected clock (a nanosecond instant, Go `time.Time`). -/
structure CampaignHandler where
  ActiveCampaign : Except GoErr Campaign
  GetCampaign : Int → Except GoErr Campaign
  TimeNow : Int

/-- Go `time.Second` in nanoseconds. -/
def second : Int := 1000000000

/-- Go `time.Minute` in nanoseconds. -/
def minute : Int := 60 * second

/-- Go `time.Hour` in nanoseconds. -/
def hour : Int := 60 * minute

/-- Embeds `CampaignHandler.ShowActive` (src/unnamed/part_001): `sql.ErrNoRows`
renders the ended view, any other lookup error answers 500, otherwise the
remaining time `EndsAt - now` is bucketed into the largest whole unit and the
show template runs with ID, price in major units and the bucketed pair. -/
def CampaignHandler.ShowActive (ch : CampaignHandler) : Response :=
  match ch.ActiveCampaign with
  | .error .sqlNoRows => .renderEnded
  | .error _ => .httpError 500 genericErrMsg
  | .ok campaign =>
    let left := campaign.EndsAt - ch.TimeNow
    let lv_lu :=
      if left ≥ 24 * hour then (left.tdiv (24 * hour), "day(s)")
      else if left ≥ hour then (left.tdiv hour, "hour(s)")
      else if left ≥ minute then (left.tdiv minute, "minute(s)")
      else (left.tdiv second, "second(s)")
    .renderShow campaign.ID (campaign.Price.tdiv 100) lv_lu.1 lv_lu.2

/-- Embeds `CampaignHandler.CampaignMw` (src/unnamed/part_001): split the
path, parse the head segment with `strconv.Atoi` (404 on failure), look the
campaign up (404 on any error), otherwise run the inner handler with the
campaign in context and the path rewritten to the tail. -/
def CampaignHandler.CampaignMw (ch : CampaignHandler) (r : Request) : MwOutcome × List Event :=
  let s := urlpath.Split r.path
  match Atoi s.1 with
  | .error _ => (.notFound, [])
  | .ok id =>
    match ch.GetCampaign id with
    | .error _ => (.notFound, [.getCampaign id])
    | .ok campaign =>
      (.next { r with ctxCampaign := some campaign, path := s.2 }, [.getCampaign id])

/-- Concrete campaign used to instantiate the theorems: ID 333, price 1200
minor units, ending two hours after instant 0. -/
def sampleCampaign : Campaign :=
  { ID := 333, Price := 1200, StartsAt := 0, EndsAt := 7200 * second }

/-- Concrete stripe customer used to instantiate the theorems. -/
def sampleCustomer : Customer := { ID := "cus_X" }

/-- Concrete stripe charge used to instantiate the theorems. -/
def sampleCharge : Charge := { ID := "chg_Y", Status := "pending" }

/-- Concrete uncharged order used to instantiate the theorems. -/
def sampleOrder : Order :=
  { ID := 42
    CampaignID := 333
    Customer := { Name := "Jane Doe", Email := "a@b.com" }
    Address := { Street1 := "123 Sticker St", Street2 := "Apt 45",
                 City := "San Francisco", State := "CA", Zip := "94139",
                 Country := "United States", Raw := "RAW BLOCK" }
    Payment := { Source := "stripe", CustomerID := "cus_X", ChargeID := "" } }

/-- The sample order after a successful charge. -/
def chargedOrder : Order :=
  { sampleOrder with
    Payment := { Source := "stripe", CustomerID := "cus_X", ChargeID := "chg_Y" } }

/-- Concrete decoded form used to instantiate the theorems. -/
def sampleForm : CreateForm :=
  { Name := "Jane Doe", Email := "a@b.com", Street1 := "123 Sticker St",
    Street2 := "Apt 45", City := "San Francisco", State := "CA", Zip := "94139",
    Country := "United States", StripeToken := "tok_visa" }

/-- A concrete order handler whose collaborators all succeed. -/
def sampleOH : OrderHandler :=
  { CreateOrder := fun _ => .ok ()
    GetOrderViaPayCus := fun s =>
      if s = "cus_X" then .ok sampleOrder else .error (.other "sql: no rows in result set")
    GetCampaign := fun i =>
      if i = 333 then .ok sampleCampaign else .error (.other "sql: no rows in result set")
    ConfirmOrder := fun _ _ _ => .ok ()
    StripePublicKey := "pk_test"
    StripeCustomer := fun _ _ => .ok sampleCustomer
    StripeGetCharge := fun _ => .ok sampleCharge
    StripeCharge := fun _ _ => .ok { ID := "chg_Y", Status := "succeeded" } }

/-- Variant of `sampleOH` whose charge call fails with a processor-classified
error. -/
def declineOH : OrderHandler :=
  { sampleOH with StripeCharge := fun _ _ => .error (.stripeErr "Your card was declined.") }

/-- Variant of `sampleOH` whose charge call fails with an unclassified error. -/
def chargeDownOH : OrderHandler :=
  { sampleOH with StripeCharge := fun _ _ => .error (.other "connection reset") }

/-- Variant of `sampleOH` whose persistence call fails after a successful charge. -/
def saveFailOH : OrderHandler :=
  { sampleOH with ConfirmOrder := fun _ _ _ => .error (.other "db down") }

/-- Variant of `sampleOH` whose charge status lookup fails. -/
def lookupFailOH : OrderHandler :=
  { sampleOH with StripeGetCharge := fun _ => .error (.other "network") }

/-- Variant of `sampleOH` whose charge status lookup returns an unrecognized
status. -/
def weirdStatusOH : OrderHandler :=
  { sampleOH with StripeGetCharge := fun _ => .ok { ID := "chg_Y", Status := "disputed" } }

/-- A concrete campaign handler: `sampleCampaign` is active and two hours
remain on the clock. -/
def sampleCH : CampaignHandler :=
  { ActiveCampaign := .ok sampleCampaign
    GetCampaign := fun i =>
      if i = 333 then .ok sampleCampaign else .error (.other "sql: no rows in result set")
    TimeNow := 0 }

/-- A concrete inbound request for the campaign middleware. -/
def sampleReq : Request := { path := "/333/orders/new", ctxCampaign := none, ctxOrder := none }

/-- A concrete inbound request for the order middleware. -/
def orderReq : Request := { path := "/cus_X/confirm/", ctxCampaign := none, ctxOrder := none }

end Swag

namespace urlpath

/-- A segment of a cleaned path: nonempty, slash-free, and neither "." nor
"..".  The `path.Clean` output buffer is a '/'-join of such segments. -/
def goodSeg (s : List Char) : Prop :=
  s ≠ [] ∧ (∀ c ∈ s, c ≠ '/') ∧ s ≠ ['.'] ∧ s ≠ ['.', '.']

/-- Joins path segments with '/' separators and neither a leading nor a
trailing separator: the shape of the `path.Clean` output buffer after its
leading slash. -/
def joinSegs : List (List Char) → List Char
  | [] => []
  | [s] => s
  | s :: rest => s ++ '/' :: joinSegs rest

end urlpath

namespace Swag

/-- C1: for an order with no prior charge, when the campaign lookup, the
charge call (returning `chg`) and the persistence call all succeed, `Confirm`
makes exactly one `ConfirmOrder` call, passing the order's internal numeric
ID, the submitted address-raw form value verbatim and the returned charge ID,
and answers a 302 redirect to "/orders/" ++ the order's payment customer
ID. -/
theorem confirm_success (oh : OrderHandler) (order : Order) (addressRaw : String)
    (campaign : Campaign) (chg : Charge)
    (hnochg : order.Payment.ChargeID = "")
    (hc : oh.GetCampaign order.CampaignID = .ok campaign)
    (hch : oh.StripeCharge order.Payment.CustomerID campaign.Price = .ok chg)
    (hco : oh.ConfirmOrder order.ID addressRaw chg.ID = .ok ()) :
    OrderHandler.Confirm oh (some order) addressRaw =
      (.response (.redirect 302 ("/orders/" ++ order.Payment.CustomerID)),
       [.getCampaign order.CampaignID,
        .charge order.Payment.CustomerID campaign.Price,
        .confirmOrder order.ID addressRaw chg.ID]) := by
  simp [OrderHandler.Confirm, hc, hch, hco]

/-- Witness for C1 at a concrete handler, order and edited address. -/
theorem confirm_success_witness :
    OrderHandler.Confirm sampleOH (some sampleOrder) "NEW ADDRESS" =
      (.response (.redirect 302 "/orders/cus_X"),
       [.getCampaign 333, .charge "cus_X" 1200,
        .confirmOrder 42 "NEW ADDRESS" "chg_Y"]) :=
  confirm_success sampleOH sampleOrder "NEW ADDRESS" sampleCampaign
    { ID := "chg_Y", Status := "succeeded" } rfl rfl rfl rfl

/-- C4: a `Create` with a campaign in context and a non-empty decoded email,
a successful customer call returning `cus` and a successful `CreateOrder`,
persists an order whose campaign ID is the context campaign's, whose payment
source is the fixed "stripe" tag, whose payment customer ID is `cus.ID` and
whose charge ID is empty, and answers a 302 redirect to exactly "/orders/"
followed by `cus.ID`. -/
theorem create_success (oh : OrderHandler) (campaign : Campaign) (form : CreateForm)
    (cus : Customer)
    (he : form.Email ≠ "")
    (hcus : oh.StripeCustomer form.StripeToken form.Email = .ok cus)
    (hdb : oh.CreateOrder (createdOrder campaign form cus.ID) = .ok ()) :
    OrderHandler.Create oh (some campaign) form =
      (.response (.redirect 302 ("/orders/" ++ cus.ID)),
       [.customer form.StripeToken form.Email,
        .createOrder (createdOrder campaign form cus.ID)]) ∧
    (createdOrder campaign form cus.ID).CampaignID = campaign.ID ∧
    (createdOrder campaign form cus.ID).Payment.Source = "stripe" ∧
    (createdOrder campaign form cus.ID).Payment.CustomerID = cus.ID ∧
    (createdOrder campaign form cus.ID).Payment.ChargeID = "" := by
  refine ⟨?_, rfl, rfl, rfl, rfl⟩
  have hcust : (createdOrder campaign form cus.ID).Payment.CustomerID = cus.ID := rfl
  simp [OrderHandler.Create, he, hcus, hdb, hcust]

/-- Witness for C4 at a concrete handler, campaign and form. -/
theorem create_success_witness :
    OrderHandler.Create sampleOH (some sampleCampaign) sampleForm =
      (.response (.redirect 302 "/orders/cus_X"),
       [.customer "tok_visa" "a@b.com",
        .createOrder (createdOrder sampleCampaign sampleForm "cus_X")]) ∧
    (createdOrder sampleCampaign sampleForm "cus_X").CampaignID = 333 ∧
    (createdOrder sampleCampaign sampleForm "cus_X").Payment.Source = "stripe" ∧
    (createdOrder sampleCampaign sampleForm "cus_X").Payment.CustomerID = "cus_X" ∧
    (createdOrder sampleCampaign sampleForm "cus_X").Payment.ChargeID = "" :=
  create_success sampleOH sampleCampaign sampleForm sampleCustomer
    (by decide) rfl rfl

/-- C9: `Create` reads the campaign context value with an unchecked type
assertion and panics when no campaign is attached, while `New` on the same
condition answers HTTP 500 with the body "Campaign not provided". -/
theorem create_missing_campaign_panics (oh : OrderHandler) (form : CreateForm) :
    OrderHandler.Create oh none form = (.panicked "interface conversion", []) ∧
    OrderHandler.New oh none = .httpError 500 campaignNotProvidedMsg :=
  ⟨rfl, rfl⟩

/-- C10: for a charged order whose campaign lookup and charge lookup both
succeed but whose charge status is none of "succeeded", "pending", "failed",
`Show` answers status 200 with an empty body: the status switch has no
default case, so nothing is rendered and no error is reported. -/
theorem show_unknown_status (oh : OrderHandler) (order : Order)
    (campaign : Campaign) (chg : Charge)
    (hc : oh.GetCampaign order.CampaignID = .ok campaign)
    (hch : order.Payment.ChargeID ≠ "")
    (hg : oh.StripeGetCharge order.Payment.ChargeID = .ok chg)
    (h1 : chg.Status ≠ "succeeded") (h2 : chg.Status ≠ "pending")
    (h3 : chg.Status ≠ "failed") :
    OrderHandler.Show oh (some order) =
      (.response (.body 200 ""),
       [.getCampaign order.CampaignID, .getCharge order.Payment.ChargeID]) := by
  simp [OrderHandler.Show, hc, hch, hg, statusMessage, h1, h2, h3]

/-- Witness for C10 at a concrete handler and charged order with status
"disputed". -/
theorem show_unknown_status_witness :
    OrderHandler.Show weirdStatusOH (some chargedOrder) =
      (.response (.body 200 ""), [.getCampaign 333, .getCharge "chg_Y"]) :=
  show_unknown_status weirdStatusOH chargedOrder sampleCampaign
    { ID := "chg_Y", Status := "disputed" } rfl (by decide) rfl
    (by decide) (by decide) (by decide)

/-- C7: when `ShowActive` finds an active campaign, the remaining time
`EndsAt` minus the injected clock is bucketed into the single largest whole
unit that fits — days when at least 24 hours, else hours when at least one
hour, else minutes when at least one minute, else seconds — exactly one
integer value and one unit being reported; a campaign ending in exactly 2
hours yields value 2 and unit "hour(s)", and the displayed price is the
minor-unit price integer-divided by 100 (1200 yields 12). -/
theorem showActive_bucketing (ch : CampaignHandler) (campaign : Campaign)
    (h : ch.ActiveCampaign = .ok campaign) :
    (24 * hour ≤ campaign.EndsAt - ch.TimeNow →
      CampaignHandler.ShowActive ch = .renderShow campaign.ID (campaign.Price.tdiv 100)
        ((campaign.EndsAt - ch.TimeNow).tdiv (24 * hour)) "day(s)") ∧
    (hour ≤ campaign.EndsAt - ch.TimeNow → campaign.EndsAt - ch.TimeNow < 24 * hour →
      CampaignHandler.ShowActive ch = .renderShow campaign.ID (campaign.Price.tdiv 100)
        ((campaign.EndsAt - ch.TimeNow).tdiv hour) "hour(s)") ∧
    (minute ≤ campaign.EndsAt - ch.TimeNow → campaign.EndsAt - ch.TimeNow < hour →
      CampaignHandler.ShowActive ch = .renderShow campaign.ID (campaign.Price.tdiv 100)
        ((campaign.EndsAt - ch.TimeNow).tdiv minute) "minute(s)") ∧
    (campaign.EndsAt - ch.TimeNow < minute →
      CampaignHandler.ShowActive ch = .renderShow campaign.ID (campaign.Price.tdiv 100)
        ((campaign.EndsAt - ch.TimeNow).tdiv second) "second(s)") ∧
    (campaign.EndsAt - ch.TimeNow = 2 * hour →
      CampaignHandler.ShowActive ch = .renderShow campaign.ID (campaign.Price.tdiv 100)
        2 "hour(s)") ∧
    (campaign.Price = 1200 → campaign.Price.tdiv 100 = 12) := by
  have hmh : minute < hour := by decide
  have hhd : hour < 24 * hour := by decide
  refine ⟨fun h1 => ?_, fun h1 h2 => ?_, fun h1 h2 => ?_, fun h1 => ?_, fun h1 => ?_,
    fun h1 => ?_⟩
  · simp [CampaignHandler.ShowActive, h, h1]
  · simp [CampaignHandler.ShowActive, h, h1, not_le.mpr h2]
  · simp [CampaignHandler.ShowActive, h, h1, not_le.mpr h2,
      not_le.mpr (lt_of_lt_of_le h2 hhd.le)]
  · simp [CampaignHandler.ShowActive, h, not_le.mpr h1,
      not_le.mpr (lt_trans h1 hmh), not_le.mpr (lt_trans (lt_trans h1 hmh) hhd)]
  · have h2 : hour ≤ (2 : Int) * hour := by decide
    have h3 : ¬ (24 * hour ≤ (2 : Int) * hour) := by decide
    have h4 : ((2 : Int) * hour).tdiv hour = 2 := by decide
    simp [CampaignHandler.ShowActive, h, h1, h2, h3, h4]
  · rw [h1]; decide

/-- Witness for C7: the sample campaign ends in exactly two hours and costs
1200 minor units, so the show view gets value 2, unit "hour(s)" and price
12. -/
theorem showActive_bucketing_witness :
    CampaignHandler.ShowActive sampleCH = .renderShow 333 12 2 "hour(s)" := by
  have := (showActive_bucketing sampleCH sampleCampaign rfl).2.2.2.2.1 (by decide)
  simpa using this

end Swag

namespace Swag

/-- C2: in `Confirm`, a processor-classified charge error writes the
processor's message verbatim and `ConfirmOrder` is never called; any other
charge error answers a generic HTTP 500 with a support contact and
`ConfirmOrder` is never called; a successful charge followed by a failed
`ConfirmOrder` answers HTTP 500 with the message warning the user they were
charged despite the save failure; and a `confirmOrder` call appears in the
trace only after, and never without, a successful charge call. -/
theorem confirm_error_paths (oh : OrderHandler) (order : Order) (addressRaw : String) :
    (∀ campaign msg, oh.GetCampaign order.CampaignID = .ok campaign →
      oh.StripeCharge order.Payment.CustomerID campaign.Price = .error (.stripeErr msg) →
      OrderHandler.Confirm oh (some order) addressRaw =
        (.response (.body 200 msg),
         [.getCampaign order.CampaignID, .charge order.Payment.CustomerID campaign.Price])) ∧
    (∀ campaign e, oh.GetCampaign order.CampaignID = .ok campaign →
      oh.StripeCharge order.Payment.CustomerID campaign.Price = .error e →
      (∀ msg, e ≠ .stripeErr msg) →
      OrderHandler.Confirm oh (some order) addressRaw =
        (.response (.httpError 500 cardErrMsg),
         [.getCampaign order.CampaignID, .charge order.Payment.CustomerID campaign.Price])) ∧
    (∀ campaign chg e, oh.GetCampaign order.CampaignID = .ok campaign →
      oh.StripeCharge order.Payment.CustomerID campaign.Price = .ok chg →
      oh.ConfirmOrder order.ID addressRaw chg.ID = .error e →
      OrderHandler.Confirm oh (some order) addressRaw =
        (.response (.httpError 500 chargedSaveFailMsg),
         [.getCampaign order.CampaignID, .charge order.Payment.CustomerID campaign.Price,
          .confirmOrder order.ID addressRaw chg.ID])) ∧
    (∀ i a c, Event.confirmOrder i a c ∈ (OrderHandler.Confirm oh (some order) addressRaw).2 →
      ∃ campaign chg, oh.GetCampaign order.CampaignID = .ok campaign ∧
        oh.StripeCharge order.Payment.CustomerID campaign.Price = .ok chg ∧
        (OrderHandler.Confirm oh (some order) addressRaw).2 =
          [.getCampaign order.CampaignID, .charge order.Payment.CustomerID campaign.Price,
           .confirmOrder order.ID addressRaw chg.ID]) := by
  refine ⟨?_, ?_, ?_, ?_⟩
  · intro campaign msg h1 h2
    simp [OrderHandler.Confirm, h1, h2]
  · intro campaign e h1 h2 h3
    cases e with
    | stripeErr msg => exact absurd rfl (h3 msg)
    | sqlNoRows => simp [OrderHandler.Confirm, h1, h2]
    | other m => simp [OrderHandler.Confirm, h1, h2]
  · intro campaign chg e h1 h2 h3
    simp [OrderHandler.Confirm, h1, h2, h3]
  · intro i a c hmem
    cases hgc : oh.GetCampaign order.CampaignID with
    | error e => simp [OrderHandler.Confirm, hgc] at hmem
    | ok campaign =>
      cases hch : oh.StripeCharge order.Payment.CustomerID campaign.Price with
      | error e => cases e <;> simp [OrderHandler.Confirm, hgc, hch] at hmem
      | ok chg =>
        refine ⟨campaign, chg, rfl, hch, ?_⟩
        cases hco : oh.ConfirmOrder order.ID addressRaw chg.ID with
        | error e => simp [OrderHandler.Confirm, hgc, hch, hco]
        | ok u => simp [OrderHandler.Confirm, hgc, hch, hco]

/-- Witness for C2 at a concrete handler whose charge call fails with a
processor-classified "card declined" error. -/
theorem confirm_error_paths_witness :
    OrderHandler.Confirm declineOH (some sampleOrder) "RAW BLOCK" =
      (.response (.body 200 "Your card was declined."),
       [.getCampaign 333, .charge "cus_X" 1200]) :=
  (confirm_error_paths declineOH sampleOrder "RAW BLOCK").1 sampleCampaign
    "Your card was declined." rfl rfl

/-- C3: for an order whose campaign lookup succeeds: with a non-empty charge
ID, `Show` queries `GetCharge` and never the charge-creating operation; a
lookup failure answers status 200 with the fixed lookup-failure body; the
statuses "succeeded", "pending" and "failed" each render their own distinct
fixed message with status 200; with an empty charge ID the review view is
rendered with the payment customer ID as displayed order ID, the raw address
and the campaign price integer-divided by 100. -/
theorem show_spec (oh : OrderHandler) (order : Order) :
    (∀ campaign e, oh.GetCampaign order.CampaignID = .ok campaign →
      order.Payment.ChargeID ≠ "" →
      oh.StripeGetCharge order.Payment.ChargeID = .error e →
      OrderHandler.Show oh (some order) =
        (.response (.body 200 (lookupFailMsg ++ "\n")),
         [.getCampaign order.CampaignID, .getCharge order.Payment.ChargeID])) ∧
    (∀ campaign chg, oh.GetCampaign order.CampaignID = .ok campaign →
      order.Payment.ChargeID ≠ "" →
      oh.StripeGetCharge order.Payment.ChargeID = .ok chg →
      OrderHandler.Show oh (some order) =
        (.response (.body 200 (statusMessage chg.Status)),
         [.getCampaign order.CampaignID, .getCharge order.Payment.ChargeID])) ∧
    statusMessage "succeeded" = succeededMsg ++ "\n" ∧
    statusMessage "pending" = pendingMsg ++ "\n" ∧
    statusMessage "failed" = failedMsg ++ "\n" ∧
    succeededMsg ≠ pendingMsg ∧ succeededMsg ≠ failedMsg ∧ pendingMsg ≠ failedMsg ∧
    (∀ cusID amount, Event.charge cusID amount ∉ (OrderHandler.Show oh (some order)).2) ∧
    (∀ campaign, oh.GetCampaign order.CampaignID = .ok campaign →
      order.Payment.ChargeID = "" →
      OrderHandler.Show oh (some order) =
        (.response (.renderReview order.Payment.CustomerID order.Address.Raw
            (campaign.Price.tdiv 100)),
         [.getCampaign order.CampaignID])) := by
  refine ⟨?_, ?_, rfl, rfl, rfl, by decide, by decide, by decide, ?_, ?_⟩
  · intro campaign e h1 h2 h3
    simp [OrderHandler.Show, h1, h2, h3]
  · intro campaign chg h1 h2 h3
    simp [OrderHandler.Show, h1, h2, h3]
  · intro cusID amount
    cases hgc : oh.GetCampaign order.CampaignID with
    | error e => simp [OrderHandler.Show, hgc]
    | ok campaign =>
      by_cases hid : order.Payment.ChargeID = ""
      · simp [OrderHandler.Show, hgc, hid]
      · cases hch : oh.StripeGetCharge order.Payment.ChargeID with
        | error e => simp [OrderHandler.Show, hgc, hid, hch]
        | ok chg => simp [OrderHandler.Show, hgc, hid, hch]
  · intro campaign h1 h2
    simp [OrderHandler.Show, h1, h2]

/-- Witness for C3 at a concrete charged order whose status lookup fails. -/
theorem show_spec_witness :
    OrderHandler.Show lookupFailOH (some chargedOrder) =
      (.response (.body 200 (lookupFailMsg ++ "\n")),
       [.getCampaign 333, .getCharge "chg_Y"]) :=
  (show_spec lookupFailOH chargedOrder).1 sampleCampaign (.other "network") rfl
    (by decide) rfl

/-- C6: the campaign middleware answers not-found without invoking the inner
handler when the head path segment is non-numeric or the campaign lookup
fails, and otherwise invokes the inner handler with the path rewritten to the
cleaned tail and the looked-up campaign attached to the request context; the
order middleware answers not-found when the order lookup by payment customer
ID fails, and otherwise invokes the inner handler with the looked-up order in
context and the head segment removed and re-normalized ("/cus_abc123/id/here"
becomes "/id/here/"); neither middleware makes a storage mutation. -/
theorem middleware_resolution (ch : CampaignHandler) (oh : OrderHandler) (r : Request) :
    (∀ e, Atoi (urlpath.Split r.path).1 = .error e →
      CampaignHandler.CampaignMw ch r = (.notFound, [])) ∧
    (∀ id e, Atoi (urlpath.Split r.path).1 = .ok id → ch.GetCampaign id = .error e →
      CampaignHandler.CampaignMw ch r = (.notFound, [.getCampaign id])) ∧
    (∀ id campaign, Atoi (urlpath.Split r.path).1 = .ok id →
      ch.GetCampaign id = .ok campaign →
      CampaignHandler.CampaignMw ch r =
        (.next { r with ctxCampaign := some campaign, path := (urlpath.Split r.path).2 },
         [.getCampaign id])) ∧
    (∀ e, oh.GetOrderViaPayCus (urlpath.Split r.path).1 = .error e →
      OrderHandler.OrderMw oh r = (.notFound, [.getOrderViaPayCus (urlpath.Split r.path).1])) ∧
    (∀ order, oh.GetOrderViaPayCus (urlpath.Split r.path).1 = .ok order →
      OrderHandler.OrderMw oh r =
        (.next { r with ctxOrder := some order, path := (urlpath.Split r.path).2 },
         [.getOrderViaPayCus (urlpath.Split r.path).1])) ∧
    (∀ o, Event.createOrder o ∉ (CampaignHandler.CampaignMw ch r).2 ∧
      Event.createOrder o ∉ (OrderHandler.OrderMw oh r).2) ∧
    (∀ i a c, Event.confirmOrder i a c ∉ (CampaignHandler.CampaignMw ch r).2 ∧
      Event.confirmOrder i a c ∉ (OrderHandler.OrderMw oh r).2) ∧
    urlpath.Split "/cus_abc123/id/here" = ("cus_abc123", "/id/here/") := by
  have hcmw : ∀ o1 (ev : Event), (ev = Event.createOrder o1 ∨
      (∃ i a c, ev = Event.confirmOrder i a c)) →
      ev ∉ (CampaignHandler.CampaignMw ch r).2 := by
    intro o1 ev hev
    cases hid : Atoi (urlpath.Split r.path).1 with
    | error e => simp [CampaignHandler.CampaignMw, hid]
    | ok id =>
      cases hgc : ch.GetCampaign id with
      | error e =>
        rcases hev with h | ⟨i, a, c, h⟩ <;>
          simp [CampaignHandler.CampaignMw, hid, hgc, h]
      | ok campaign =>
        rcases hev with h | ⟨i, a, c, h⟩ <;>
          simp [CampaignHandler.CampaignMw, hid, hgc, h]
  have homw : ∀ o1 (ev : Event), (ev = Event.createOrder o1 ∨
      (∃ i a c, ev = Event.confirmOrder i a c)) →
      ev ∉ (OrderHandler.OrderMw oh r).2 := by
    intro o1 ev hev
    cases hgo : oh.GetOrderViaPayCus (urlpath.Split r.path).1 with
    | error e =>
      rcases hev with h | ⟨i, a, c, h⟩ <;> simp [OrderHandler.OrderMw, hgo, h]
    | ok order =>
      rcases hev with h | ⟨i, a, c, h⟩ <;> simp [OrderHandler.OrderMw, hgo, h]
  refine ⟨?_, ?_, ?_, ?_, ?_, ?_, ?_, by decide⟩
  · intro e h
    simp [CampaignHandler.CampaignMw, h]
  · intro id e h1 h2
    simp [CampaignHandler.CampaignMw, h1, h2]
  · intro id campaign h1 h2
    simp [CampaignHandler.CampaignMw, h1, h2]
  · intro e h
    simp [OrderHandler.OrderMw, h]
  · intro order h
    simp [OrderHandler.OrderMw, h]
  · exact fun o => ⟨hcmw o _ (Or.inl rfl), homw o _ (Or.inl rfl)⟩
  · exact fun i a c => ⟨hcmw sampleOrder _ (Or.inr ⟨i, a, c, rfl⟩),
      homw sampleOrder _ (Or.inr ⟨i, a, c, rfl⟩)⟩

/-- Witness for C6: both middlewares at concrete requests with resolvable
identifiers. -/
theorem middleware_resolution_witness :
    CampaignHandler.CampaignMw sampleCH sampleReq =
      (.next { path := "/orders/new/", ctxCampaign := some sampleCampaign, ctxOrder := none },
       [.getCampaign 333]) ∧
    OrderHandler.OrderMw sampleOH orderReq =
      (.next { path := "/confirm/", ctxCampaign := none, ctxOrder := some sampleOrder },
       [.getOrderViaPayCus "cus_X"]) :=
  ⟨(middleware_resolution sampleCH sampleOH sampleReq).2.2.1 333 sampleCampaign rfl rfl,
   (middleware_resolution sampleCH sampleOH orderReq).2.2.2.2.1 sampleOrder rfl⟩

end Swag

namespace Swag

/-- When the pattern occurs nowhere in the subject, `strings.Replace` with
count 1 returns the subject unchanged. -/
theorem replaceOnce_of_not_contains (pat rep : List Char) :
    ∀ s : List Char, containsSeq pat s = false → replaceOnce s pat rep = s := by
  intro s
  induction s with
  | nil =>
    intro h
    simp only [containsSeq] at h
    simp [replaceOnce, h]
  | cons c rest ih =>
    intro h
    simp only [containsSeq, Bool.or_eq_false_iff] at h
    simp [replaceOnce, h.1, ih h.2]

/-- A newline-free block contributes nothing to a double-newline search. -/
theorem containsSeq_append_not_mem (xs ys : List Char) (h : '\n' ∉ xs) :
    containsSeq ['\n', '\n'] (xs ++ ys) = containsSeq ['\n', '\n'] ys := by
  induction xs with
  | nil => rfl
  | cons c xs' ih =>
    have hc : ('\n' == c) = false :=
      beq_eq_false_iff_ne.mpr fun hx => h (hx ▸ List.mem_cons_self c xs')
    have h' : '\n' ∉ xs' := fun hx => h (List.mem_cons_of_mem c hx)
    simp [containsSeq, hasPref, hc, ih h']

/-- A newline-free list contains no double newline. -/
theorem containsSeq_nil_false (xs : List Char) (h : '\n' ∉ xs) :
    containsSeq ['\n', '\n'] xs = false := by
  have h2 := containsSeq_append_not_mem xs [] h
  simpa [containsSeq, hasPref] using h2

/-- A single newline followed by a non-newline character starts no double
newline, so the search continues past it. -/
theorem containsSeq_newline_cons (xs : List Char) (hne : xs ≠ [])
    (hx : xs.head? ≠ some '\n') :
    containsSeq ['\n', '\n'] ('\n' :: xs) = containsSeq ['\n', '\n'] xs := by
  cases xs with
  | nil => exact absurd rfl hne
  | cons d xs' =>
    have hd : ¬ d = '\n' := by simpa using hx
    have hbe : ('\n' == d) = false := beq_eq_false_iff_ne.mpr fun hh => hd hh.symm
    simp [containsSeq, hasPref, hbe]

/-- A trailing single newline before a newline-free block yields no double
newline. -/
theorem containsSeq_newline_last (xs : List Char) (h : '\n' ∉ xs) :
    containsSeq ['\n', '\n'] ('\n' :: xs) = false := by
  cases xs with
  | nil => rfl
  | cons d xs' =>
    have hd : ¬ d = '\n' := fun hx => h (hx ▸ List.mem_cons_self d xs')
    have hbe : ('\n' == d) = false := beq_eq_false_iff_ne.mpr fun hh => hd hh.symm
    have h' : '\n' ∉ xs' := fun hx => h (List.mem_cons_of_mem d hx)
    simp [containsSeq, hasPref, hbe, hd, containsSeq_nil_false _ h']

/-- The head of a nonempty newline-free block, also after an append, is not a
newline. -/
theorem head?_append_ne_newline (xs ys : List Char) (hne : xs ≠ []) (h : '\n' ∉ xs) :
    (xs ++ ys).head? ≠ some '\n' := by
  cases xs with
  | nil => exact absurd rfl hne
  | cons a xs' =>
    simp only [List.cons_append, List.head?_cons, ne_eq, Option.some.injEq]
    exact fun ha => h (ha ▸ List.mem_cons_self a xs')

/-- The last element of a nonempty newline-free block is not a newline. -/
theorem getLast?_ne_newline (ys : List Char) (hne : ys ≠ []) (h : '\n' ∉ ys) :
    ys.getLast? ≠ some '\n' := by
  intro hsome
  rw [List.getLast?_eq_getLast_of_ne_nil hne] at hsome
  exact h ((Option.some.injEq _ _ ▸ hsome : ys.getLast hne = '\n') ▸ List.getLast_mem hne)

/-- The five-line address layout contains no double newline when every field
is newline-free and the three middle lines are nonempty. -/
theorem containsSeq_block_false (n l1 l2 l4 co : List Char)
    (hn : '\n' ∉ n) (h1 : '\n' ∉ l1) (h2 : '\n' ∉ l2) (h4 : '\n' ∉ l4) (hc : '\n' ∉ co)
    (h1ne : l1 ≠ []) (h2ne : l2 ≠ []) (h4ne : l4 ≠ []) :
    containsSeq ['\n', '\n']
      (n ++ '\n' :: (l1 ++ '\n' :: (l2 ++ '\n' :: (l4 ++ '\n' :: co)))) = false := by
  rw [containsSeq_append_not_mem _ _ hn,
    containsSeq_newline_cons _ (by simp) (head?_append_ne_newline _ _ h1ne h1),
    containsSeq_append_not_mem _ _ h1,
    containsSeq_newline_cons _ (by simp) (head?_append_ne_newline _ _ h2ne h2),
    containsSeq_append_not_mem _ _ h2,
    containsSeq_newline_cons _ (by simp) (head?_append_ne_newline _ _ h4ne h4),
    containsSeq_append_not_mem _ _ h4,
    containsSeq_newline_last _ hc]

/-- Replacing the first double newline when it sits exactly at a known
boundary: everything before the boundary contains no double newline and does
not end in a newline, so that occurrence is the first one. -/
theorem replaceOnce_boundary :
    ∀ A B : List Char, containsSeq ['\n', '\n'] A = false → A.getLast? ≠ some '\n' →
      replaceOnce (A ++ '\n' :: '\n' :: B) ['\n', '\n'] ['\n'] = A ++ '\n' :: B := by
  intro A
  induction A with
  | nil => intro B _ _; simp [replaceOnce, hasPref]
  | cons c A' ih =>
    intro B hcs hlast
    simp only [containsSeq, Bool.or_eq_false_iff] at hcs
    have hpre : hasPref ['\n', '\n'] (c :: (A' ++ '\n' :: '\n' :: B)) = false := by
      by_cases hcn : c = '\n'
      · subst hcn
        cases A' with
        | nil => simp at hlast
        | cons d A'' =>
          have hd : ('\n' == d) = false := by
            have hx := hcs.1
            simp only [hasPref, Bool.and_eq_false_iff] at hx
            rcases hx with hx | hx
            · simp at hx
            · simpa [hasPref, Bool.and_eq_false_iff] using hx
          simp [hasPref, hd]
      · have hb : ('\n' == c) = false := beq_eq_false_iff_ne.mpr fun hh => hcn hh.symm
        simp [hasPref, hb]
    have htail : replaceOnce (A' ++ '\n' :: '\n' :: B) ['\n', '\n'] ['\n'] =
        A' ++ '\n' :: B := by
      apply ih B hcs.2
      cases A' with
      | nil => simp
      | cons d A'' => simpa [List.getLast?_cons_cons] using hlast
    simp [replaceOnce, hpre, htail]

end Swag

namespace Swag

/-- C5 counterexample: with an empty first street line and a non-empty second
street line ("A" / "" / "B" / "C S  Z" / "X"), the code still collapses (the
first double newline sits after the name line), so the raw address is not the
upper-casing of the uncollapsed block the claim predicts for a non-empty
second address line. -/
theorem create_raw_address_cex :
    rawAddress "A" "" "B" "C" "S" "Z" "X" ≠
      goToUpper ("A" ++ "\n" ++ "" ++ "\n" ++ "B" ++ "\n"
        ++ "C" ++ " " ++ "S" ++ "  " ++ "Z" ++ "\n" ++ "X") := by
  decide

/-- C5 (amended): the code replaces the first double-newline occurrence
anywhere in the block before upper-casing; provided every field is
newline-free and the first street line is non-empty, this coincides with the
claim: when the second street line is non-empty no collapsing occurs, and
when it is empty exactly its duplicate blank line is collapsed. -/
theorem create_raw_address_amended (name s1 s2 city st zip country : String)
    (hn : '\n' ∉ name.data) (h1 : '\n' ∉ s1.data) (h2 : '\n' ∉ s2.data)
    (hc : '\n' ∉ city.data) (hs : '\n' ∉ st.data) (hz : '\n' ∉ zip.data)
    (hco : '\n' ∉ country.data) (h1ne : s1 ≠ "") :
    (s2 ≠ "" → rawAddress name s1 s2 city st zip country =
      goToUpper (name ++ "\n" ++ s1 ++ "\n" ++ s2 ++ "\n"
        ++ city ++ " " ++ st ++ "  " ++ zip ++ "\n" ++ country)) ∧
    (s2 = "" → rawAddress name s1 s2 city st zip country =
      goToUpper (name ++ "\n" ++ s1 ++ "\n"
        ++ city ++ " " ++ st ++ "  " ++ zip ++ "\n" ++ country)) := by
  have h1d : s1.data ≠ [] := fun hd => h1ne (String.ext (by rw [hd]))
  have d1 : ("\n" : String).data = ['\n'] := rfl
  have d2 : (" " : String).data = [' '] := rfl
  have d3 : ("  " : String).data = [' ', ' '] := rfl
  have d4 : ("" : String).data = [] := rfl
  have d5 : ("\n\n" : String).data = ['\n', '\n'] := rfl
  have h4mem : '\n' ∉ city.data ++ ' ' :: (st.data ++ ' ' :: ' ' :: zip.data) := by
    simp [List.mem_append, List.mem_cons, hc, hs, hz]
  constructor
  · intro hs2
    have h2d : s2.data ≠ [] := fun hd => hs2 (String.ext (by rw [hd]))
    have hsh : (name ++ "\n" ++ s1 ++ "\n" ++ s2 ++ "\n"
        ++ city ++ " " ++ st ++ "  " ++ zip ++ "\n" ++ country).data =
        name.data ++ '\n' :: (s1.data ++ '\n' :: (s2.data ++ '\n' ::
          ((city.data ++ ' ' :: (st.data ++ ' ' :: ' ' :: zip.data))
            ++ '\n' :: country.data))) := by
      simp [String.data_append, d1, d2, d3, List.append_assoc]
    have hrepl : replaceOnce
        (name ++ "\n" ++ s1 ++ "\n" ++ s2 ++ "\n"
          ++ city ++ " " ++ st ++ "  " ++ zip ++ "\n" ++ country).data
        ("\n\n").data ("\n").data =
        (name ++ "\n" ++ s1 ++ "\n" ++ s2 ++ "\n"
          ++ city ++ " " ++ st ++ "  " ++ zip ++ "\n" ++ country).data := by
      rw [d5]
      apply replaceOnce_of_not_contains
      rw [hsh]
      exact containsSeq_block_false _ _ _ _ _ hn h1 h2 h4mem hco h1d h2d (by simp)
    simp only [rawAddress]
    rw [hrepl]
  · intro hs2
    subst hs2
    have hsh2 : (name ++ "\n" ++ s1 ++ "\n" ++ "" ++ "\n"
        ++ city ++ " " ++ st ++ "  " ++ zip ++ "\n" ++ country).data =
        (name.data ++ '\n' :: s1.data) ++ '\n' :: '\n' ::
          ((city.data ++ ' ' :: (st.data ++ ' ' :: ' ' :: zip.data))
            ++ '\n' :: country.data) := by
      simp [String.data_append, d1, d2, d3, d4, List.append_assoc]
    have hA : containsSeq ['\n', '\n'] (name.data ++ '\n' :: s1.data) = false := by
      rw [containsSeq_append_not_mem _ _ hn]
      exact containsSeq_newline_last _ h1
    have hlastA : (name.data ++ '\n' :: s1.data).getLast? ≠ some '\n' := by
      rw [List.getLast?_append_cons]
      cases hsd : s1.data with
      | nil => exact absurd hsd h1d
      | cons e s' =>
        rw [List.getLast?_cons_cons]
        exact getLast?_ne_newline _ (by simp) (hsd ▸ h1)
    simp only [rawAddress]
    rw [hsh2, replaceOnce_boundary _ _ hA hlastA]
    have htgt : (name.data ++ '\n' :: s1.data) ++ '\n' ::
        ((city.data ++ ' ' :: (st.data ++ ' ' :: ' ' :: zip.data))
          ++ '\n' :: country.data) =
        (name ++ "\n" ++ s1 ++ "\n"
          ++ city ++ " " ++ st ++ "  " ++ zip ++ "\n" ++ country).data := by
      simp [String.data_append, d1, d2, d3, List.append_assoc]
    rw [htgt]

/-- Witness for the amended C5: both branches at concrete newline-free
fields. -/
theorem create_raw_address_amended_witness :
    rawAddress "Jane" "123 St" "Apt 4" "SF" "CA" "941" "US"
      = goToUpper ("Jane" ++ "\n" ++ "123 St" ++ "\n" ++ "Apt 4" ++ "\n"
        ++ "SF" ++ " " ++ "CA" ++ "  " ++ "941" ++ "\n" ++ "US") ∧
    rawAddress "Jane" "123 St" "" "SF" "CA" "941" "US"
      = goToUpper ("Jane" ++ "\n" ++ "123 St" ++ "\n"
        ++ "SF" ++ " " ++ "CA" ++ "  " ++ "941" ++ "\n" ++ "US") :=
  ⟨(create_raw_address_amended "Jane" "123 St" "Apt 4" "SF" "CA" "941" "US"
      (by decide) (by decide) (by decide) (by decide) (by decide) (by decide)
      (by decide) (by decide)).1 (by decide),
   (create_raw_address_amended "Jane" "123 St" "" "SF" "CA" "941" "US"
      (by decide) (by decide) (by decide) (by decide) (by decide) (by decide)
      (by decide) (by decide)).2 rfl⟩

end Swag

namespace urlpath

theorem cleanLoop_true_cons (out : List Char) (c : Char) (X : List Char) (h : c ≠ '/') :
    cleanLoop out true (c :: X) = cleanLoop (out ++ [c]) true X := by
  by_cases hd : c = '.'
  · subst hd
    cases X with
    | nil => rw [cleanLoop.eq_3]; simp
    | cons d X' =>
      by_cases hds : d = '/'
      · subst hds; rw [cleanLoop.eq_4]; simp
      · by_cases hdd : d = '.'
        · subst hdd
          cases X' with
          | nil => rw [cleanLoop.eq_5]; simp
          | cons e X'' =>
            by_cases hes : e = '/'
            · subst hes; rw [cleanLoop.eq_6]; simp
            · rw [cleanLoop.eq_7 out true '.' ('.' :: e :: X'')
                (by simp) (by simp) (fun r2 _ hh => by simp at hh)
                (by intro _ hh; injection hh with h1 h2; exact absurd h2 (by simp))
                (fun r2 _ hh => by
                  injection hh with h1 h2; injection h2 with h3 h4; exact hes h3)]
              simp
        · rw [cleanLoop.eq_7 out true '.' (d :: X')
            (by simp) (by simp) (fun r2 _ hh => by injection hh with h1 h2; exact hds h1)
            (by intro _ hh; injection hh with h1 h2; exact hdd h1)
            (fun r2 _ hh => by injection hh with h1 h2; exact hdd h1)]
          simp
  · rw [cleanLoop.eq_7 out true c X (fun hh => h hh) (fun hh _ => hd hh)
      (fun r2 hh _ => hd hh) (fun hh _ => hd hh) (fun r2 hh _ => hd hh)]
    simp [h]

theorem cleanLoop_false_default (out : List Char) (c : Char) (rest : List Char)
    (h1 : c ≠ '/') (h2 : c ≠ '.') :
    cleanLoop out false (c :: rest) = cleanLoop (appendSeg out [c]) true rest := by
  rw [cleanLoop.eq_7 out false c rest (fun hh => h1 hh) (fun hh _ => h2 hh)
    (fun r2 hh _ => h2 hh) (fun hh _ => h2 hh) (fun r2 hh _ => h2 hh)]
  simp

theorem cleanLoop_false_dot_default (out : List Char) (d : Char) (r : List Char)
    (hds : d ≠ '/') (hdd : d ≠ '.') :
    cleanLoop out false ('.' :: d :: r) = cleanLoop (appendSeg out ['.']) true (d :: r) := by
  rw [cleanLoop.eq_7 out false '.' (d :: r)
    (by simp) (by simp) (fun r2 _ hh => by injection hh with a1 a2; exact hds a1)
    (by intro _ hh; injection hh with a1 a2; exact hdd a1)
    (fun r2 _ hh => by injection hh with a1 a2; exact hdd a1)]
  simp

theorem cleanLoop_false_dotdot_default (out : List Char) (e : Char) (r : List Char)
    (hes : e ≠ '/') :
    cleanLoop out false ('.' :: '.' :: e :: r) =
      cleanLoop (appendSeg out ['.']) true ('.' :: e :: r) := by
  rw [cleanLoop.eq_7 out false '.' ('.' :: e :: r)
    (by simp) (by simp) (fun r2 _ hh => by simp at hh)
    (by intro _ hh; injection hh with a1 a2; exact absurd a2 (by simp))
    (fun r2 _ hh => by
      injection hh with a1 a2; injection a2 with a3 a4; exact hes a3)]
  simp

theorem joinSegs_cons (s : List Char) (rest : List (List Char)) (h : rest ≠ []) :
    joinSegs (s :: rest) = s ++ '/' :: joinSegs rest := by
  cases rest with
  | nil => exact absurd rfl h
  | cons t r => rfl

theorem joinSegs_concat (segs : List (List Char)) (t : List Char) (h : segs ≠ []) :
    joinSegs (segs ++ [t]) = joinSegs segs ++ '/' :: t := by
  induction segs with
  | nil => exact absurd rfl h
  | cons s rest ih =>
    cases rest with
    | nil => rfl
    | cons u r =>
      rw [List.cons_append, joinSegs_cons s ((u :: r) ++ [t]) (by simp),
        joinSegs_cons s (u :: r) (by simp), ih (by simp)]
      simp

theorem joinSegs_ne_nil (segs : List (List Char)) (h : ∀ s ∈ segs, goodSeg s)
    (hne : segs ≠ []) : joinSegs segs ≠ [] := by
  cases segs with
  | nil => exact absurd rfl hne
  | cons s rest =>
    have hs := (h s (List.mem_cons_self s rest)).1
    cases rest with
    | nil => exact hs
    | cons u r => simp [joinSegs_cons s (u :: r) (by simp)]

theorem getLast?_ne_slash (ys : List Char) (hne : ys ≠ []) (h : ∀ c ∈ ys, c ≠ '/') :
    ys.getLast? ≠ some '/' := by
  intro hsome
  rw [List.getLast?_eq_getLast_of_ne_nil hne] at hsome
  exact h _ (List.getLast_mem hne) (Option.some.injEq _ _ ▸ hsome)

theorem joinSegs_getLast_ne_slash (segs : List (List Char))
    (h : ∀ s ∈ segs, goodSeg s) : (joinSegs segs).getLast? ≠ some '/' := by
  rcases List.eq_nil_or_concat segs with hnil | ⟨init, t, hcat⟩
  · subst hnil; simp [joinSegs]
  · rw [List.concat_eq_append] at hcat
    subst hcat
    have ht : goodSeg t := h t (by simp)
    have hlast : (joinSegs (init ++ [t])).getLast? = t.getLast? := by
      cases init with
      | nil => rfl
      | cons i ir =>
        rw [joinSegs_concat _ _ (by simp), List.getLast?_append_cons]
        cases t with
        | nil => exact absurd rfl ht.1
        | cons a t' => rw [List.getLast?_cons_cons]
    rw [hlast]
    exact getLast?_ne_slash t ht.1 ht.2.1

theorem dropWhile_append_all (p : Char → Bool) (l1 l2 : List Char)
    (h : ∀ x ∈ l1, p x = true) : (l1 ++ l2).dropWhile p = l2.dropWhile p := by
  induction l1 with
  | nil => rfl
  | cons a l ih =>
    rw [List.cons_append, List.dropWhile_cons_of_pos (h a (by simp))]
    exact ih fun x hx => h x (by simp [hx])

theorem popSeg_joinSegs (segs : List (List Char)) (h : ∀ s ∈ segs, goodSeg s) :
    popSeg (joinSegs segs) = joinSegs segs.dropLast := by
  rcases List.eq_nil_or_concat segs with hnil | ⟨init, t, hcat⟩
  · subst hnil; rfl
  · rw [List.concat_eq_append] at hcat
    subst hcat
    have ht : goodSeg t := h t (by simp)
    have htr : ∀ x ∈ t.reverse, (fun c => decide (c ≠ '/')) x = true := by
      intro x hx
      simpa using ht.2.1 x (List.mem_reverse.mp hx)
    rw [List.dropLast_concat]
    cases init with
    | nil =>
      show popSeg (joinSegs [t]) = joinSegs []
      simp only [joinSegs, popSeg]
      rw [List.dropWhile_eq_nil_iff.mpr htr]
      rfl
    | cons i ir =>
      rw [joinSegs_concat _ _ (by simp)]
      simp only [popSeg]
      rw [List.reverse_append, List.reverse_cons, List.append_assoc,
        List.singleton_append, dropWhile_append_all _ _ _ htr,
        List.dropWhile_cons_of_neg (by simp)]
      simp

theorem appendSeg_joinSegs (segs : List (List Char)) (seg : List Char)
    (h : ∀ s ∈ segs, goodSeg s) :
    appendSeg (joinSegs segs) seg = joinSegs (segs ++ [seg]) := by
  cases segs with
  | nil => rfl
  | cons s rest =>
    have hne : joinSegs (s :: rest) ≠ [] := joinSegs_ne_nil _ h (by simp)
    have hie : (joinSegs (s :: rest)).isEmpty = false := by
      cases hj : joinSegs (s :: rest) with
      | nil => exact absurd hj hne
      | cons a l => rfl
    rw [joinSegs_concat _ _ (by simp)]
    simp [appendSeg, hie]

theorem cleanLoop_copy (s : List Char) : ∀ (out X : List Char), (∀ c ∈ s, c ≠ '/') →
    cleanLoop out true (s ++ X) = cleanLoop (out ++ s) true X := by
  induction s with
  | nil => intro out X _; simp
  | cons c s' ih =>
    intro out X h
    rw [List.cons_append, cleanLoop_true_cons out c _ (h c (by simp)),
      ih (out ++ [c]) X (fun x hx => h x (by simp [hx]))]
    simp

theorem cleanLoop_true_run (out Y : List Char) :
    cleanLoop out true Y =
      match Y.dropWhile (fun x => x ≠ '/') with
      | [] => out ++ Y.takeWhile (fun x => x ≠ '/')
      | _ :: r3 => cleanLoop (out ++ Y.takeWhile (fun x => x ≠ '/')) false r3 := by
  conv_lhs => rw [← List.takeWhile_append_dropWhile (fun x => x ≠ '/') Y]
  rw [cleanLoop_copy _ out _ (fun x hx => by simpa using List.mem_takeWhile_imp hx)]
  cases hdw : Y.dropWhile (fun x => x ≠ '/') with
  | nil => rfl
  | cons h0 r3 =>
    have hh : h0 = '/' := by
      have hx := List.head?_dropWhile_not (fun x => x ≠ '/') Y
      rw [hdw] at hx
      simpa using hx
    subst hh
    rfl

theorem cleanLoop_seg_step (seg : List Char) (out X : List Char) (h : goodSeg seg) :
    cleanLoop out false (seg ++ X) = cleanLoop (appendSeg out seg) true X := by
  obtain ⟨hne, hns, hd1, hd2⟩ := h
  cases seg with
  | nil => exact absurd rfl hne
  | cons c s =>
    by_cases hc : c = '.'
    · subst hc
      cases s with
      | nil => exact absurd rfl hd1
      | cons d s' =>
        by_cases hdd : d = '.'
        · subst hdd
          cases s' with
          | nil => exact absurd rfl hd2
          | cons e s'' =>
            have hes : e ≠ '/' := hns e (by simp)
            rw [List.cons_append, List.cons_append, List.cons_append,
              cleanLoop_false_dotdot_default out e _ hes,
              show ('.' :: e :: (s'' ++ X)) = ('.' :: e :: s'') ++ X from rfl,
              cleanLoop_copy ('.' :: e :: s'') _ X
                (fun x hx => hns x (List.mem_cons_of_mem _ hx))]
            simp [appendSeg]
        · have hds : d ≠ '/' := hns d (by simp)
          rw [List.cons_append, List.cons_append,
            cleanLoop_false_dot_default out d _ hds hdd,
            show (d :: (s' ++ X)) = (d :: s') ++ X from rfl,
            cleanLoop_copy (d :: s') _ X
              (fun x hx => hns x (List.mem_cons_of_mem _ hx))]
          simp [appendSeg]
    · have hcs : c ≠ '/' := hns c (by simp)
      rw [List.cons_append, cleanLoop_false_default out c _ hcs hc,
        cleanLoop_copy s _ X (fun x hx => hns x (List.mem_cons_of_mem _ hx))]
      simp [appendSeg]

theorem cleanLoop_rejoin (segs : List (List Char)) : ∀ (segs0 : List (List Char)),
    (∀ s ∈ segs, goodSeg s) → (∀ s ∈ segs0, goodSeg s) →
    cleanLoop (joinSegs segs0) false (joinSegs segs ++ ['/']) =
      joinSegs (segs0 ++ segs) := by
  induction segs with
  | nil =>
    intro segs0 _ _
    rw [List.append_nil]
    rfl
  | cons s rest ih =>
    intro segs0 hgood hgood0
    have hs : goodSeg s := hgood s (by simp)
    have hgood0' : ∀ t ∈ segs0 ++ [s], goodSeg t := by
      intro t ht
      rcases List.mem_append.mp ht with h1 | h1
      · exact hgood0 t h1
      · simpa [List.mem_singleton.mp h1] using hs
    cases rest with
    | nil =>
      show cleanLoop (joinSegs segs0) false (s ++ ['/']) = joinSegs (segs0 ++ [s])
      rw [cleanLoop_seg_step s _ ['/'] hs,
        show cleanLoop (appendSeg (joinSegs segs0) s) true ['/'] =
          appendSeg (joinSegs segs0) s from rfl]
      exact appendSeg_joinSegs segs0 s hgood0
    | cons u r =>
      rw [joinSegs_cons s (u :: r) (by simp),
        show (s ++ '/' :: joinSegs (u :: r)) ++ ['/'] =
          s ++ ('/' :: (joinSegs (u :: r) ++ ['/'])) by simp,
        cleanLoop_seg_step s _ _ hs,
        show cleanLoop (appendSeg (joinSegs segs0) s) true
            ('/' :: (joinSegs (u :: r) ++ ['/'])) =
          cleanLoop (appendSeg (joinSegs segs0) s) false
            (joinSegs (u :: r) ++ ['/']) from rfl,
        appendSeg_joinSegs segs0 s hgood0,
        ih (segs0 ++ [s]) (fun t ht => hgood t (List.mem_cons_of_mem _ ht)) hgood0']
      simp

theorem cleanLoop_inv_step (n : Nat)
    (ihn : ∀ (cs : List Char), cs.length ≤ n →
      ∀ (segs : List (List Char)), (∀ s ∈ segs, goodSeg s) →
      ∃ segs', (∀ s ∈ segs', goodSeg s) ∧
        cleanLoop (joinSegs segs) false cs = joinSegs segs')
    (c : Char) (rest : List Char) (hlen : rest.length ≤ n)
    (segs : List (List Char)) (hgood : ∀ s ∈ segs, goodSeg s)
    (hred : cleanLoop (joinSegs segs) false (c :: rest) =
      cleanLoop (appendSeg (joinSegs segs) [c]) true rest)
    (hsg : goodSeg (c :: rest.takeWhile (fun x => x ≠ '/'))) :
    ∃ segs', (∀ s ∈ segs', goodSeg s) ∧
      cleanLoop (joinSegs segs) false (c :: rest) = joinSegs segs' := by
  have hbuf : appendSeg (joinSegs segs) [c] ++ rest.takeWhile (fun x => x ≠ '/') =
      joinSegs (segs ++ [c :: rest.takeWhile (fun x => x ≠ '/')]) := by
    rw [show appendSeg (joinSegs segs) [c] ++ rest.takeWhile (fun x => x ≠ '/') =
        appendSeg (joinSegs segs) (c :: rest.takeWhile (fun x => x ≠ '/')) by
      simp [appendSeg]]
    exact appendSeg_joinSegs segs _ hgood
  have hgood2 : ∀ t ∈ segs ++ [c :: rest.takeWhile (fun x => x ≠ '/')], goodSeg t := by
    intro t ht
    rcases List.mem_append.mp ht with h1 | h1
    · exact hgood t h1
    · rw [List.mem_singleton.mp h1]
      exact hsg
  rw [hred, cleanLoop_true_run]
  cases hdw : rest.dropWhile (fun x => x ≠ '/') with
  | nil => exact ⟨segs ++ [c :: rest.takeWhile (fun x => x ≠ '/')], hgood2, hbuf⟩
  | cons h0 r3 =>
    have hsl : (rest.dropWhile (fun x => x ≠ '/')).length ≤ rest.length :=
      (List.dropWhile_suffix (fun x => x ≠ '/')).sublist.length_le
    rw [hdw] at hsl
    simp only [List.length_cons] at hsl
    obtain ⟨segs', hg', heq⟩ := ihn r3 (by omega) _ hgood2
    refine ⟨segs', hg', ?_⟩
    show cleanLoop (appendSeg (joinSegs segs) [c] ++ rest.takeWhile (fun x => x ≠ '/'))
      false r3 = joinSegs segs'
    rw [hbuf]
    exact heq

theorem cleanLoop_inv : ∀ (n : Nat) (cs : List Char), cs.length ≤ n →
    ∀ (segs : List (List Char)), (∀ s ∈ segs, goodSeg s) →
    ∃ segs', (∀ s ∈ segs', goodSeg s) ∧
      cleanLoop (joinSegs segs) false cs = joinSegs segs' := by
  intro n
  induction n with
  | zero =>
    intro cs hlen segs hgood
    have hnil : cs = [] := List.length_eq_zero.mp (Nat.le_zero.mp hlen)
    subst hnil
    exact ⟨segs, hgood, rfl⟩
  | succ n ihn =>
    intro cs hlen segs hgood
    have hdrop : ∀ s ∈ segs.dropLast, goodSeg s :=
      fun s hs => hgood s ((List.dropLast_sublist segs).subset hs)
    cases cs with
    | nil => exact ⟨segs, hgood, rfl⟩
    | cons c rest =>
      simp only [List.length_cons, Nat.succ_le_succ_iff] at hlen
      by_cases hc : c = '/'
      · subst hc
        exact ihn rest hlen segs hgood
      · by_cases hd : c = '.'
        · subst hd
          cases rest with
          | nil => exact ⟨segs, hgood, rfl⟩
          | cons d r2 =>
            simp only [List.length_cons] at hlen
            by_cases hds : d = '/'
            · subst hds
              exact ihn r2 (by omega) segs hgood
            · by_cases hdd : d = '.'
              · subst hdd
                cases r2 with
                | nil =>
                  refine ⟨segs.dropLast, hdrop, ?_⟩
                  rw [show cleanLoop (joinSegs segs) false ['.', '.'] =
                      popSeg (joinSegs segs) from rfl]
                  exact popSeg_joinSegs segs hgood
                | cons e r3 =>
                  simp only [List.length_cons] at hlen
                  by_cases hes : e = '/'
                  · subst hes
                    obtain ⟨segs', hg', heq⟩ := ihn r3 (by omega) segs.dropLast hdrop
                    refine ⟨segs', hg', ?_⟩
                    rw [show cleanLoop (joinSegs segs) false ('.' :: '.' :: '/' :: r3) =
                        cleanLoop (popSeg (joinSegs segs)) false r3 from rfl,
                      popSeg_joinSegs segs hgood]
                    exact heq
                  · refine cleanLoop_inv_step n ihn '.' ('.' :: e :: r3)
                      (by simp only [List.length_cons]; omega) segs hgood
                      (cleanLoop_false_dotdot_default (joinSegs segs) e r3 hes) ?_
                    rw [List.takeWhile_cons_of_pos (by simp),
                      List.takeWhile_cons_of_pos (by simp [hes])]
                    refine ⟨by simp, ?_, by simp, ?_⟩
                    · intro x hx
                      rcases List.mem_cons.mp hx with h1 | h1
                      · simp [h1]
                      · rcases List.mem_cons.mp h1 with h2 | h2
                        · simp [h2]
                        · rcases List.mem_cons.mp h2 with h3 | h3
                          · exact h3 ▸ hes
                          · simpa using List.mem_takeWhile_imp h3
                    · intro hq
                      injection hq with q1 q2
                      injection q2 with q3 q4
                      simp at q4
              · refine cleanLoop_inv_step n ihn '.' (d :: r2)
                  (by simp only [List.length_cons]; omega) segs hgood
                  (cleanLoop_false_dot_default (joinSegs segs) d r2 hds hdd) ?_
                rw [List.takeWhile_cons_of_pos (by simp [hds])]
                refine ⟨by simp, ?_, by simp, ?_⟩
                · intro x hx
                  rcases List.mem_cons.mp hx with h1 | h1
                  · simp [h1]
                  · rcases List.mem_cons.mp h1 with h2 | h2
                    · exact h2 ▸ hds
                    · simpa using List.mem_takeWhile_imp h2
                · intro hq
                  injection hq with q1 q2
                  injection q2 with q3 q4
                  exact hdd q3
        · refine cleanLoop_inv_step n ihn c rest hlen segs hgood
            (cleanLoop_false_default (joinSegs segs) c rest hc hd) ?_
          refine ⟨by simp, ?_, ?_, ?_⟩
          · intro x hx
            rcases List.mem_cons.mp hx with h1 | h1
            · exact h1 ▸ hc
            · simpa using List.mem_takeWhile_imp h1
          · intro hq
            injection hq with q1 q2
            exact hd q1
          · intro hq
            injection hq with q1 q2
            exact hd q1

/-- C8: for every path string, `Clean` is idempotent and its result always
starts with '/' and ends with '/'; `Clean` is a total function on all
strings, normalizing rather than rejecting malformed input. -/
theorem clean_idempotent_affixes (p : String) :
    Clean (Clean p) = Clean p ∧
    (Clean p).data.head? = some '/' ∧
    (Clean p).data.getLast? = some '/' := by
  obtain ⟨segs, hgood, heq'⟩ :=
    cleanLoop_inv p.data.length p.data (le_refl _) [] (by simp)
  have heq2 : cleanLoop [] false p.data = joinSegs segs := heq'
  cases hsegs : segs with
  | nil =>
    rw [hsegs] at heq2
    have h1 : Clean p = ⟨['/']⟩ := by
      simp only [Clean, stdCleanRooted, heq2]
      rfl
    rw [h1]
    exact ⟨rfl, rfl, rfl⟩
  | cons s rest =>
    rw [hsegs] at heq2 hgood
    have hJne : joinSegs (s :: rest) ≠ [] := joinSegs_ne_nil _ hgood (by simp)
    have hJlast : (joinSegs (s :: rest)).getLast? ≠ some '/' :=
      joinSegs_getLast_ne_slash _ hgood
    have hqlast : ('/' :: joinSegs (s :: rest)).getLast? =
        (joinSegs (s :: rest)).getLast? := by
      cases hj : joinSegs (s :: rest) with
      | nil => exact absurd hj hJne
      | cons a l => rw [List.getLast?_cons_cons]
    have h1 : Clean p = ⟨'/' :: joinSegs (s :: rest) ++ ['/']⟩ := by
      simp only [Clean, stdCleanRooted, heq2]
      rw [if_neg (by rw [hqlast]; exact hJlast)]
    have h2 : cleanLoop [] false (joinSegs (s :: rest) ++ ['/']) = joinSegs (s :: rest) := by
      have h3 := cleanLoop_rejoin (s :: rest) [] hgood (by simp)
      simpa using h3
    refine ⟨?_, ?_, ?_⟩
    · rw [h1]
      show Clean ⟨'/' :: joinSegs (s :: rest) ++ ['/']⟩ =
        ⟨'/' :: joinSegs (s :: rest) ++ ['/']⟩
      simp only [Clean, stdCleanRooted]
      rw [show cleanLoop [] false ('/' :: joinSegs (s :: rest) ++ ['/']) =
          cleanLoop [] false (joinSegs (s :: rest) ++ ['/']) from rfl,
        h2]
      rw [if_neg (by rw [hqlast]; exact hJlast)]
    · rw [h1]
      rfl
    · rw [h1]
      show ('/' :: joinSegs (s :: rest) ++ ['/']).getLast? = some '/'
      rw [show '/' :: joinSegs (s :: rest) ++ ['/'] =
          ('/' :: joinSegs (s :: rest)) ++ '/' :: [] from rfl,
        List.getLast?_append_cons]
      rfl

end urlpath
